import Mathlib

/-!
Shallow embedding of the Caduceus webhook fan-out gateway (Comcast/caduceus).

The embedding follows the Go sources:
  * src/caduceus/caduceus_type.go : worker pool, health buckets, intake handler
    (ServerHandler.ServeHTTP)
  * src/caduceus/caduceusProfiler.go : profiler aggregate loop
  * webhookHandler.go : listener registry HTTP handlers
Components whose implementation files are not present in the repository
snapshot (OutboundSender, SenderWrapper, webhook.W codec) are modelled from
the specification, as marked in their doc comments.

Machine integers are modelled as Nat / Int (no overflow is relevant on the
paths embedded here); Go time.Time values are Unix nanoseconds as Nat, with
the zero time being 0; fallible Go calls return Except / Option.
-/

namespace Caduceus

/-! ## Worker pool primitive (caduceus_type.go, WorkerPool) -/

/-- Embeds the WorkerPool struct: a bounded job channel. The channel is
modelled by its buffer (a list of pending jobs, oldest first) together with
its capacity (the QueueSize the factory passed to make). -/
structure WorkerPool (α : Type) where
  queueSize : Nat
  jobs : List α
deriving Repr, DecidableEq

/-- Embeds WorkerPool.Send: a select with a default case, i.e. a non-blocking
channel send.  It succeeds exactly when the buffered channel has free
capacity; otherwise it returns the error from caduceus_type.go verbatim and
the channel is unchanged. -/
def WorkerPool.Send {α : Type} (wp : WorkerPool α) (inFunc : α) :
    Except String (WorkerPool α) :=
  if wp.jobs.length < wp.queueSize then
    .ok { wp with jobs := wp.jobs ++ [inFunc] }
  else
    .error "Worker pool channel full."

/-! ## Health payload-size buckets (caduceus_type.go, CaduceusHealth) -/

/-- Embeds the four health.Stat constants of caduceus_type.go. -/
inductive Stat : Type
  | PayloadsOverZero
  | PayloadsOverHundred
  | PayloadsOverThousand
  | PayloadsOverTenThousand
deriving Repr, DecidableEq

/-- Health counter state: the current value of each stat. -/
def Health : Type := Stat → Nat

/-- Embeds health.Inc(stat, 1) delivered through SendEvent: bump one stat. -/
def healthInc (stat : Stat) (h : Health) : Health :=
  fun s => if s = stat then h s + 1 else h s

/-- Embeds CaduceusHealth.IncrementBucket.  inSize is a Go int, so Int here. -/
def IncrementBucket (inSize : Int) (h : Health) : Health :=
  if inSize < 100 then
    healthInc .PayloadsOverZero h
  else if inSize < 1000 then
    healthInc .PayloadsOverHundred h
  else if inSize < 10000 then
    healthInc .PayloadsOverThousand h
  else
    healthInc .PayloadsOverTenThousand h

/-- The bucket IncrementBucket selects, following the same if chain. -/
def bucketOf (inSize : Int) : Stat :=
  if inSize < 100 then .PayloadsOverZero
  else if inSize < 1000 then .PayloadsOverHundred
  else if inSize < 10000 then .PayloadsOverThousand
  else .PayloadsOverTenThousand

/-! ## Intake handler (ServerHandler.ServeHTTP in caduceus_type.go)

The handler writes through a net/http ResponseWriter.  Per net/http
semantics, the first Write with no prior WriteHeader commits status 200,
and any later WriteHeader call is superfluous and ignored. -/

/-- Status/body state of an http.ResponseWriter. -/
structure ResponseWriter where
  status : Option Nat
  body : String
deriving Repr, DecidableEq

/-- A fresh ResponseWriter: no status committed, empty body. -/
def ResponseWriter.empty : ResponseWriter := { status := none, body := "" }

/-- net/http WriteHeader: commits the code unless a status is already
committed (in which case the call is superfluous and ignored). -/
def ResponseWriter.WriteHeader (rw : ResponseWriter) (code : Nat) :
    ResponseWriter :=
  match rw.status with
  | some _ => rw
  | none => { rw with status := some code }

/-- net/http Write (also what fmt.Fprintf uses): commits status 200 when no
status is committed yet, then appends the bytes to the body. -/
def ResponseWriter.write (rw : ResponseWriter) (s : String) : ResponseWriter :=
  match rw.status with
  | some _ => { rw with body := rw.body ++ s }
  | none => { rw with status := some 200, body := rw.body ++ s }

/-- Embeds the CaduceusRequest struct (payload, content type, target URL,
plus the two timestamps ServeHTTP stamps before submission). -/
structure CaduceusRequest where
  payload : String
  contentType : String
  targetURL : String
  timeReceived : Nat
  timeAccepted : Nat
deriving Repr, DecidableEq

/-- An inbound http.Request as ServeHTTP consumes it: the outcome of reading
the body (ioutil.ReadAll), the Content-Type header values (none when the key
is absent), and the request URL. -/
structure Request where
  bodyResult : Except String String
  contentTypeHeader : Option (List String)
  url : String
deriving Repr

/-- Result of one ServeHTTP call: the response writer, the front-door pool
after the call, and the health counters after the call. -/
structure ServeResult where
  response : ResponseWriter
  pool : WorkerPool CaduceusRequest
  health : Health

/-- Embeds ServerHandler.ServeHTTP from caduceus_type.go, step for step:
greet the caller via fmt.Fprintf, read the body (400 on read error), extract
the single Content-Type value (400 message when absent or ambiguous, then
return if none was set), build the CaduceusRequest, submit it to the worker
pool (408 message on a full pool, otherwise 202 message and a health-bucket
increment).  now is the time.Now() value used for the timestamps. -/
def ServeHTTP (pool : WorkerPool CaduceusRequest) (health : Health)
    (request : Request) (now : Nat) : ServeResult :=
  let rw := ResponseWriter.empty.write "Heyo whaddup!\n"
  match request.bodyResult with
  | .error e =>
    { response :=
        (rw.WriteHeader 400).write
          ("Unable to retrieve the request body: " ++ e ++ ".\n")
      pool := pool, health := health }
  | .ok myPayload =>
    let (rw, contentType) :=
      match request.contentTypeHeader with
      | some value =>
        if value.length = 1 then (rw, value.headD "")
        else
          ((rw.WriteHeader 400).write
            "Content-Type cannot have more than one specification.\n", "")
      | none =>
        ((rw.WriteHeader 400).write
          "Content-Type must be set in the header.\n", "")
    if contentType = "" then
      { response := rw, pool := pool, health := health }
    else
      let caduceusRequest : CaduceusRequest :=
        { payload := myPayload
          contentType := contentType
          targetURL := request.url
          timeReceived := now
          timeAccepted := now }
      match pool.Send caduceusRequest with
      | .error _ =>
        { response :=
            (rw.WriteHeader 408).write "Unable to handle request at this time.\n"
          pool := pool, health := health }
      | .ok pool2 =>
        { response :=
            (rw.WriteHeader 202).write "Request placed on to queue.\n"
          pool := pool2
          health := IncrementBucket (myPayload.length : Int) health }

/-! ## OutboundSender (spec sections 4.1, 4.2)

The implementation file outboundSender.go is not part of the repository
snapshot; only its tests are.  The definitions below are therefore modelled
from the specification. -/

/-- A delivery job as an OutboundSender sees it: the prepared payload plus
the (event, deviceID, transaction id) triple the caller supplies to Queue. -/
structure Job where
  event : String
  deviceID : String
  transID : String
  payload : String
deriving Repr, DecidableEq

/-- Modelled from the spec: OutboundSender state (spec section 3).  A
compiled regex is its matching predicate on whole strings; deliverUntil and
the cut-off bookkeeping are Unix-nanosecond times; the bounded job channel
is its buffer (oldest first) plus the capacity QueueSize; lastCutoff is the
timestamp-of-last-notification field the spec names for failure-URL rate
limiting (none before any notification). -/
structure OutboundSender where
  events : List (String → Bool)
  matcher : List (String → Bool)
  deliverUntil : Nat
  queueSize : Nat
  queue : List Job
  failureURL : Option String
  cutOffPeriod : Nat
  lastCutoff : Option Nat

/-- Modelled from the spec: the Matcher contract (spec section 4.1).  The
event must match at least one Events regex; the device-id check is skipped
when the device_id matcher list is empty, otherwise at least one device-id
regex must match. -/
def OutboundSender.accept (s : OutboundSender) (event deviceID : String) :
    Bool :=
  s.events.any (fun r => r event) &&
    (s.matcher.isEmpty || s.matcher.any (fun r => r deviceID))

/-- Modelled from the spec: Extend(t) updates deliverUntil only to a strictly
later time (spec section 4.2).  The Go zero time is 0 here, so Extend with
the zero time falls into the no-op branch. -/
def OutboundSender.Extend (s : OutboundSender) (t : Nat) : OutboundSender :=
  if s.deliverUntil < t then { s with deliverUntil := t } else s

/-- What one call to Queue did with the job. -/
inductive QueueResult : Type
  | droppedExpired
  | droppedNoMatch
  | enqueued
  | cutoffNotified
  | cutoffSilent
deriving Repr, DecidableEq

/-- Modelled from the spec: the queue-overflow (cut-off) episode (spec
sections 4.2, 5 and 9).  With no FailureURL only an error is logged.  With a
FailureURL, a notification POST is made only when no earlier notification
happened within the last cutOffPeriod, and the
timestamp-of-last-notification field is then set to now. -/
def OutboundSender.queueOverflow (s : OutboundSender) (now : Nat) :
    OutboundSender × QueueResult :=
  match s.failureURL with
  | none => (s, .cutoffSilent)
  | some _ =>
    match s.lastCutoff with
    | none => ({ s with lastCutoff := some now }, .cutoffNotified)
    | some last =>
      if last + s.cutOffPeriod ≤ now then
        ({ s with lastCutoff := some now }, .cutoffNotified)
      else
        (s, .cutoffSilent)

/-- Modelled from the spec: Queue(job) policy, in order (spec section 4.2):
(1) drop when now is past deliverUntil; (2) drop when the matcher rejects;
(3) enqueue when the bounded queue has room, else run the queue-overflow
policy and drop the job.  A job whose result is enqueued is picked up by a
worker and an outbound POST is attempted for it; every other result makes no
outbound POST for this job. -/
def OutboundSender.Queue (s : OutboundSender) (now : Nat) (job : Job) :
    OutboundSender × QueueResult :=
  if s.deliverUntil < now then
    (s, .droppedExpired)
  else if ¬ s.accept job.event job.deviceID then
    (s, .droppedNoMatch)
  else if s.queue.length < s.queueSize then
    ({ s with queue := s.queue ++ [job] }, .enqueued)
  else
    s.queueOverflow now

/-- One timed enqueue against the accumulated (sender, notification times)
state: run Queue and record the time when it notified the FailureURL. -/
def runQueueStep (acc : OutboundSender × List Nat) (tj : Nat × Job) :
    OutboundSender × List Nat :=
  let step := acc.1.Queue tj.1 tj.2
  (step.1, if step.2 = .cutoffNotified then acc.2 ++ [tj.1] else acc.2)

/-- Run a sequence of timed enqueues through one sender, collecting the
times at which a cut-off notification POST was made to the FailureURL. -/
def runQueue (s : OutboundSender) (tr : List (Nat × Job)) :
    OutboundSender × List Nat :=
  tr.foldl runQueueStep (s, [])

/-! ## OutboundSender / SenderWrapper construction (spec sections 4.2, 4.3, 7)

The factories live in outboundSender.go / senderWrapper.go, which are not in
the snapshot; modelled from the specification. -/

/-- Modelled from the spec: URL validation at construction requires an
absolute http(s) URL with a non-empty host (spec sections 3 and 4.2). -/
def validAbsoluteURL (s : String) : Bool :=
  if s.startsWith "http://" then
    ((s.drop 7).takeWhile (fun c => c ≠ '/')).length > 0
  else if s.startsWith "https://" then
    ((s.drop 8).takeWhile (fun c => c ≠ '/')).length > 0
  else
    false

/-- Modelled from the spec: the inputs of OutboundSenderFactory, as the
tests set them (listener fields plus shared client / logger / worker-pool /
cut-off parameters).  The HTTP client and the logger are reference values,
kept only as present-or-nil; regexes are the raw strings to compile; an
empty failureURL string means no FailureURL was provided. -/
structure OutboundSenderFactory where
  url : String
  contentType : String
  secret : String
  untilTime : Nat
  events : List String
  matchers : List (String × List String)
  failureURL : String
  client : Option Unit
  logger : Option Unit
  numWorkers : Nat
  queueSize : Nat
  cutOffPeriod : Nat

/-- The raw device_id regex strings of a factory input (the only matcher
field the system recognizes). -/
def OutboundSenderFactory.deviceIdList (osf : OutboundSenderFactory) :
    List String :=
  ((osf.matchers.lookup "device_id").getD [])

/-- Compile every regex of a list in order, failing on the first regex the
compiler rejects (the loop each factory runs over its regex lists). -/
def compileList (compile : String → Option (String → Bool)) :
    List String → Option (List (String → Bool))
  | [] => some []
  | r :: rest =>
    match compile r with
    | none => none
    | some p => (compileList compile rest).map (fun ps => p :: ps)

/-- Modelled from the spec: OutboundSenderFactory.New validates everything
at construction (spec sections 4.2 and 7): non-nil client and logger,
strictly positive CutOffPeriod, a valid absolute URL (an absent URL is the
empty string, hence invalid), a non-empty events list, every events and
device_id regex must compile, and a provided FailureURL must be valid.  Any
failure returns an error and no sender.  compile stands for the regex
compiler (Go regexp.Compile), returning the compiled predicate or none. -/
def OutboundSenderFactory.New (compile : String → Option (String → Bool))
    (osf : OutboundSenderFactory) : Except String OutboundSender :=
  if osf.client = none then .error "nil HTTP client" else
  if osf.cutOffPeriod = 0 then .error "Invalid CutOffPeriod" else
  if osf.logger = none then .error "nil logger" else
  if ¬ validAbsoluteURL osf.url then .error "Invalid URL" else
  if osf.events = [] then .error "Events must not be empty" else
  match compileList compile osf.events with
  | none => .error "Invalid event regex"
  | some evs =>
    match compileList compile osf.deviceIdList with
    | none => .error "Invalid device_id regex"
    | some ms =>
      if osf.failureURL ≠ "" ∧ ¬ validAbsoluteURL osf.failureURL then
        .error "Invalid FailureURL"
      else
        .ok { events := evs
              matcher := ms
              deliverUntil := osf.untilTime
              queueSize := osf.queueSize
              queue := []
              failureURL :=
                if osf.failureURL = "" then none else some osf.failureURL
              cutOffPeriod := osf.cutOffPeriod
              lastCutoff := none }

/-- Modelled from the spec: SenderWrapper state, the dispatch set keyed by
listener URL (spec section 3) plus the shared construction parameters. -/
structure SenderWrapper where
  senders : List (String × OutboundSender)
  numWorkersPerSender : Nat
  queueSizePerSender : Nat
  cutOffPeriod : Nat
  linger : Nat

/-- Modelled from the spec: the inputs of SenderWrapperFactory. -/
structure SenderWrapperFactory where
  numWorkersPerSender : Nat
  queueSizePerSender : Nat
  cutOffPeriod : Nat
  linger : Nat

/-- Modelled from the spec: SenderWrapperFactory.New requires strictly
positive NumWorkersPerSender, QueueSizePerSender, CutOffPeriod and Linger
(spec section 4.3); a zero value fails construction. -/
def SenderWrapperFactory.New (swf : SenderWrapperFactory) :
    Except String SenderWrapper :=
  if swf.numWorkersPerSender = 0 then .error "Invalid NumWorkersPerSender" else
  if swf.queueSizePerSender = 0 then .error "Invalid QueueSizePerSender" else
  if swf.cutOffPeriod = 0 then .error "Invalid CutOffPeriod" else
  if swf.linger = 0 then .error "Invalid Linger" else
  .ok { senders := []
        numWorkersPerSender := swf.numWorkersPerSender
        queueSizePerSender := swf.queueSizePerSender
        cutOffPeriod := swf.cutOffPeriod
        linger := swf.linger }

/-- Modelled from the spec: the reconcile step of SenderWrapper.Update for a
single listener (spec sections 4.3 and 7).  A URL already in the dispatch
set gets Extend(until); an absent URL gets a freshly constructed sender, and
when construction fails the listener is ignored and the dispatch set is
unchanged. -/
def SenderWrapper.updateOne (compile : String → Option (String → Bool))
    (m : List (String × OutboundSender)) (osf : OutboundSenderFactory) :
    List (String × OutboundSender) :=
  match m.lookup osf.url with
  | some _ =>
    m.map (fun p => if p.1 = osf.url then (p.1, p.2.Extend osf.untilTime) else p)
  | none =>
    match osf.New compile with
    | .ok s => m ++ [(osf.url, s)]
    | .error _ => m

/-! ## Listener registry (webhookHandler.go)

The handlers UpdateRegistry (POST /hook) and GetRegistry (GET /hook) are in
the snapshot.  The listener record webhook.W with its JSON codec lives in
webpa-common, and the argus item store is an external service; both are
modelled from the specification (sections 3, 4.5 and 6). -/

/-- A JSON value, as produced by encoding/json on the types in play. -/
inductive JValue : Type
  | str (s : String)
  | num (n : Nat)
  | arr (elements : List JValue)
  | obj (fields : List (String × JValue))

/-- Modelled from the spec: the webhook.W listener record (spec section 3
and the registration JSON shape of section 6). -/
structure WebhookW where
  url : String
  contentType : String
  secret : String
  events : List String
  deviceIds : List String
  untilTime : Nat
  duration : Nat
  failureURL : String
  address : String
deriving Repr, DecidableEq

/-- Modelled from the spec: json.Marshal of a webhook.W, using the field
tags visible in GetRegistry and the registration shape of spec section 6. -/
def marshalW (w : WebhookW) : JValue :=
  .obj [("config", .obj [("url", .str w.url),
                         ("content_type", .str w.contentType),
                         ("secret", .str w.secret)]),
        ("events", .arr (w.events.map .str)),
        ("matcher", .obj [("device_id", .arr (w.deviceIds.map .str))]),
        ("failure_url", .str w.failureURL),
        ("duration", .num w.duration),
        ("until", .num w.untilTime),
        ("registered_from_address", .str w.address)]

/-- Object-field lookup on a JSON value (none when not an object or the key
is absent). -/
def JValue.getField (j : JValue) (key : String) : Option JValue :=
  match j with
  | .obj fields => fields.lookup key
  | _ => none

/-- Decode a JSON array of strings (none on any non-string element). -/
def decodeStrList : List JValue → Option (List String)
  | [] => some []
  | .str s :: rest => (decodeStrList rest).map (fun l => s :: l)
  | _ :: _ => none

/-- Decode a string field with Go json.Unmarshal semantics: an absent key
leaves the zero value, a present key must hold a string. -/
def decodeStrField (j : JValue) (key : String) : Option String :=
  match j.getField key with
  | none => some ""
  | some (.str s) => some s
  | some _ => none

/-- Decode a numeric field with Go json.Unmarshal semantics. -/
def decodeNumField (j : JValue) (key : String) : Option Nat :=
  match j.getField key with
  | none => some 0
  | some (.num n) => some n
  | some _ => none

/-- Decode a string-array field with Go json.Unmarshal semantics. -/
def decodeStrListField (j : JValue) (key : String) : Option (List String) :=
  match j.getField key with
  | none => some []
  | some (.arr l) => decodeStrList l
  | some _ => none

/-- Modelled from the spec: json.Unmarshal of a JSON value into a webhook.W.
Absent keys leave zero values; a key bound to a value of the wrong type is
an unmarshal error. -/
def unmarshalW (j : JValue) : Option WebhookW := do
  let config := (j.getField "config").getD (.obj [])
  let url ← decodeStrField config "url"
  let contentType ← decodeStrField config "content_type"
  let secret ← decodeStrField config "secret"
  let events ← decodeStrListField j "events"
  let matcher := (j.getField "matcher").getD (.obj [])
  let deviceIds ← decodeStrListField matcher "device_id"
  let failureURL ← decodeStrField j "failure_url"
  let duration ← decodeNumField j "duration"
  let untilTime ← decodeNumField j "until"
  let address ← decodeStrField j "registered_from_address"
  some { url, contentType, secret, events, deviceIds, untilTime, duration,
         failureURL, address }

/-- Modelled from the spec: an item of the external listener store
(Identifier, opaque Data, TTL). -/
structure Item where
  identifier : String
  data : JValue
  ttl : Nat

/-- Modelled from the spec: webhook.NewW decodes a registration payload into
a listener record and captures the registering remote address (spec
sections 3 and 4.5). -/
def NewW (payload : JValue) (remoteAddr : String) : Option WebhookW :=
  (unmarshalW payload).map (fun w => { w with address := remoteAddr })

/-- Embeds Registry.UpdateRegistry from webhookHandler.go: decode the
payload via webhook.NewW (a decode failure is the 400 path), marshal the
record back to a generic JSON map, and push the item (identifier = the
record's ID, i.e. its URL) onto the external store, here modelled as a list
of items the push appends to. -/
def UpdateRegistry (defaultTTL : Nat) (store : List Item) (payload : JValue)
    (remoteAddr : String) : Except String (List Item) :=
  match NewW payload remoteAddr with
  | none => .error "400 invalid registration"
  | some w =>
    .ok (store ++ [{ identifier := w.url, data := marshalW w, ttl := defaultTTL }])

/-- Embeds convertItemToWebhook from webhookHandler.go: marshal the item's
opaque data back to JSON and unmarshal it into a webhook.W (the two marshal
steps compose to unmarshalW on the stored JSON value). -/
def convertItemToWebhook (item : Item) : Option WebhookW :=
  unmarshalW item.data

/-- The anonymous record GetRegistry serializes per listener. -/
structure RegistryRecord where
  url : String
  contentType : String
  failureURL : String
  events : List String
  deviceIds : List String
  untilTime : Nat
  lastRegistration : String
deriving Repr, DecidableEq

/-- Embeds Registry.GetRegistry from webhookHandler.go: convert every stored
item back to a webhook.W (skipping items that fail to decode) and project
the fields the endpoint returns. -/
def GetRegistry (store : List Item) : List RegistryRecord :=
  store.filterMap (fun item =>
    (convertItemToWebhook item).map (fun hook =>
      { url := hook.url
        contentType := hook.contentType
        failureURL := hook.failureURL
        events := hook.events
        deviceIds := hook.deviceIds
        untilTime := hook.untilTime
        lastRegistration := hook.address }))

/-! ## Profiler aggregate loop (caduceusProfiler.go)

The goroutine caduceusProfiler.aggregate is a loop over three channel
events: a ticker tick, an arriving datum on inChan (fed by Send), and quit.
It is embedded as a step function over the event sequence the loop consumes
before quitting.  The ring (serverRing) is modelled by the list of elements
added to it, with Snapshot reading that list; what parent.Send receives is
cp.process applied to the batch, recorded here by the batch itself. -/

/-- State of the aggregate loop: the temporary batch (the local variable
named data), the profiler ring, and the batches handed to parent.Send. -/
structure ProfilerState (α : Type) where
  batch : List α
  ring : List α
  parentSends : List (List α)

/-- An event the aggregate loop can consume. -/
inductive ProfilerEvent (α : Type) : Type
  | tick
  | data (x : α)

/-- Embeds one iteration of the select in caduceusProfiler.aggregate.  On a
tick: with a parent, send the processed batch to the parent; in either case
clear the batch (the assignment data = nil sits outside the parent check).
On arriving data: with a parent, append to the batch; with no parent, add to
the ring. -/
def aggregateStep {α : Type} (hasParent : Bool) (s : ProfilerState α) :
    ProfilerEvent α → ProfilerState α
  | .tick =>
    if hasParent then
      { s with parentSends := s.parentSends ++ [s.batch], batch := [] }
    else
      { s with batch := [] }
  | .data inData =>
    if hasParent then
      { s with batch := s.batch ++ [inData] }
    else
      { s with ring := s.ring ++ [inData] }

/-- The state aggregate starts from: empty batch, fresh ring, and — with a
parent — the stat sent out at the start of time (an empty batch). -/
def aggregateInit (hasParent : Bool) {α : Type} : ProfilerState α :=
  { batch := [], ring := [], parentSends := if hasParent then [[]] else [] }

/-- Embeds a full run of caduceusProfiler.aggregate over the events consumed
before quit. -/
def aggregateRun {α : Type} (hasParent : Bool)
    (events : List (ProfilerEvent α)) : ProfilerState α :=
  events.foldl (aggregateStep hasParent) (aggregateInit hasParent)

/-- Embeds caduceusProfiler.Report: a snapshot of the profiler ring. -/
def Report {α : Type} (s : ProfilerState α) : List α := s.ring

/-- The data delivered to the loop via Send, in arrival order. -/
def receivedData {α : Type} (events : List (ProfilerEvent α)) : List α :=
  events.filterMap (fun e =>
    match e with
    | .tick => none
    | .data x => some x)

/-! ## Shared helper lemmas and concrete samples -/

/-- A concrete sender for witnesses: events accept iot, no device matcher,
deliverUntil 10, queue capacity 2, FailureURL set, cut-off period 4. -/
def sampleSender : OutboundSender :=
  { events := [fun e => e == "iot"]
    matcher := []
    deliverUntil := 10
    queueSize := 2
    queue := []
    failureURL := some "http://localhost:12345/bar"
    cutOffPeriod := 4
    lastCutoff := none }

/-- A concrete job matching sampleSender. -/
def sampleJob : Job :=
  { event := "iot"
    deviceID := "mac:112233445566"
    transID := "1234"
    payload := "Hello, world." }

/-- One Extend call never lowers deliverUntil. -/
theorem extend_le (s : OutboundSender) (t : Nat) :
    s.deliverUntil ≤ (s.Extend t).deliverUntil := by
  unfold OutboundSender.Extend
  split_ifs with h
  · exact Nat.le_of_lt h
  · exact Nat.le_refl _

/-- A fold of Extend calls never lowers deliverUntil. -/
theorem foldl_extend_le (ts : List Nat) :
    ∀ s : OutboundSender,
      s.deliverUntil ≤ (ts.foldl OutboundSender.Extend s).deliverUntil := by
  induction ts with
  | nil => intro s; exact Nat.le_refl _
  | cons t ts ih =>
    intro s
    exact Nat.le_trans (extend_le s t) (ih (s.Extend t))

/-- A tick or datum consumed with a parent configured never touches the
profiler ring. -/
theorem aggregateStep_true_ring {α : Type} (s : ProfilerState α)
    (e : ProfilerEvent α) : (aggregateStep true s e).ring = s.ring := by
  cases e <;> rfl

/-- Folding the aggregate loop with a parent leaves the ring where it
started. -/
theorem foldl_aggregateStep_true_ring {α : Type}
    (events : List (ProfilerEvent α)) :
    ∀ s : ProfilerState α,
      (events.foldl (aggregateStep true) s).ring = s.ring := by
  induction events with
  | nil => intro s; rfl
  | cons e events ih =>
    intro s
    calc (events.foldl (aggregateStep true) (aggregateStep true s e)).ring
        = (aggregateStep true s e).ring := ih _
      _ = s.ring := aggregateStep_true_ring s e

/-- Folding the aggregate loop with no parent appends every received datum
to the ring. -/
theorem foldl_aggregateStep_false_ring {α : Type}
    (events : List (ProfilerEvent α)) :
    ∀ s : ProfilerState α,
      (events.foldl (aggregateStep false) s).ring =
        s.ring ++ receivedData events := by
  induction events with
  | nil => intro s; simp [receivedData]
  | cons e events ih =>
    intro s
    cases e with
    | tick =>
      simp only [List.foldl_cons, ih, receivedData, List.filterMap_cons]
      rfl
    | data x =>
      simp only [List.foldl_cons, ih, receivedData, List.filterMap_cons]
      simp [aggregateStep, List.append_assoc]

/-! ## Claim theorems -/

/-- C8: WorkerPool.Send is a total function (the non-blocking select): when
the bounded job channel has free capacity it enqueues the job and returns no
error, and when the channel is at capacity it returns the pool-full error
without enqueueing. -/
theorem workerPool_send_spec {α : Type} (wp : WorkerPool α) (f : α) :
    (wp.jobs.length < wp.queueSize →
      wp.Send f = .ok { wp with jobs := wp.jobs ++ [f] }) ∧
    (wp.queueSize ≤ wp.jobs.length →
      wp.Send f = .error "Worker pool channel full.") := by
  refine ⟨fun h => ?_, fun h => ?_⟩
  · simp [WorkerPool.Send, h]
  · simp [WorkerPool.Send, Nat.not_lt.mpr h]

/-- Witness for C8 at concrete pools: a pool with room accepts job 7, a full
pool rejects it unchanged. -/
theorem workerPool_send_spec_witness :
    WorkerPool.Send { queueSize := 1, jobs := ([] : List Nat) } 7 =
      .ok { queueSize := 1, jobs := [7] } ∧
    WorkerPool.Send { queueSize := 1, jobs := [5] } 7 =
      .error "Worker pool channel full." := by
  constructor
  · have h :=
      (workerPool_send_spec { queueSize := 1, jobs := ([] : List Nat) } 7).1
        (by decide)
    simpa using h
  · have h :=
      (workerPool_send_spec { queueSize := 1, jobs := [5] } 7).2 (by decide)
    simpa using h

/-- C9: IncrementBucket bumps exactly one payload-size stat by one, namely
the bucket selected by inSize, and the bucket boundaries are 100, 1000 and
10000. -/
theorem incrementBucket_spec (inSize : Int) (h : Health) :
    IncrementBucket inSize h (bucketOf inSize) = h (bucketOf inSize) + 1 ∧
    (∀ s : Stat, s ≠ bucketOf inSize → IncrementBucket inSize h s = h s) ∧
    (bucketOf inSize = .PayloadsOverZero ↔ inSize < 100) ∧
    (bucketOf inSize = .PayloadsOverHundred ↔ 100 ≤ inSize ∧ inSize < 1000) ∧
    (bucketOf inSize = .PayloadsOverThousand ↔
      1000 ≤ inSize ∧ inSize < 10000) ∧
    (bucketOf inSize = .PayloadsOverTenThousand ↔ 10000 ≤ inSize) := by
  have hsel : IncrementBucket inSize h = healthInc (bucketOf inSize) h := by
    unfold IncrementBucket bucketOf
    split_ifs <;> rfl
  rw [hsel]
  refine ⟨by simp [healthInc], fun s hs => by simp [healthInc, hs], ?_, ?_, ?_, ?_⟩ <;>
    (unfold bucketOf; split_ifs <;> simp <;> omega)

/-- Witness for C9 at concrete sizes: 5000 falls in the thousand bucket,
which alone is bumped. -/
theorem incrementBucket_spec_witness :
    IncrementBucket 5000 (fun _ => 0) .PayloadsOverThousand = 1 ∧
    IncrementBucket 5000 (fun _ => 0) .PayloadsOverHundred = 0 ∧
    bucketOf 5000 = .PayloadsOverThousand := by
  have h1 := (incrementBucket_spec 5000 (fun _ => 0)).1
  have h2 := (incrementBucket_spec 5000 (fun _ => 0)).2.1 .PayloadsOverHundred
    (by decide)
  have h3 := ((incrementBucket_spec 5000 (fun _ => 0)).2.2.2.2.1).mpr
    (by constructor <;> decide)
  rw [h3] at h1
  exact ⟨by simpa using h1, by simpa using h2, h3⟩

/-- C6: Extend(t) raises deliverUntil to t exactly when t is later, is a
no-op otherwise and on the zero time, and deliverUntil never decreases
across any sequence of Extend calls. -/
theorem extend_spec (s : OutboundSender) (t : Nat) :
    (s.deliverUntil < t → (s.Extend t).deliverUntil = t) ∧
    (¬ s.deliverUntil < t → s.Extend t = s) ∧
    s.Extend 0 = s ∧
    (∀ ts : List Nat,
      s.deliverUntil ≤ (ts.foldl OutboundSender.Extend s).deliverUntil) := by
  refine ⟨fun h => ?_, fun h => ?_, ?_, fun ts => foldl_extend_le ts s⟩
  · simp [OutboundSender.Extend, h]
  · simp [OutboundSender.Extend, h]
  · simp [OutboundSender.Extend]

/-- Witness for C6 at a concrete sender with deliverUntil 10: extending to
50 sets 50, extending to 5 or the zero time is a no-op, and a fold of
extensions keeps deliverUntil at least 10. -/
theorem extend_spec_witness :
    (sampleSender.Extend 50).deliverUntil = 50 ∧
    sampleSender.Extend 5 = sampleSender ∧
    sampleSender.Extend 0 = sampleSender ∧
    sampleSender.deliverUntil ≤
      (([3, 50, 7].foldl OutboundSender.Extend sampleSender)).deliverUntil := by
  refine ⟨(extend_spec sampleSender 50).1 (by decide),
          (extend_spec sampleSender 5).2.1 (by decide),
          (extend_spec sampleSender 0).2.2.1,
          (extend_spec sampleSender 0).2.2.2 [3, 50, 7]⟩

/-- C10: with a non-nil parent, the aggregate loop accumulates received data
only in the temporary batch, hands the batch to the parent at each tick and
clears it, and never writes the ring, so Report always returns the snapshot
of an empty ring; with a nil parent, received data goes to the ring that
Report exposes. -/
theorem profiler_parent_spec {α : Type} :
    (∀ events : List (ProfilerEvent α),
      (aggregateRun true events).ring = [] ∧
      Report (aggregateRun true events) = []) ∧
    (∀ (s : ProfilerState α) (x : α),
      aggregateStep true s (.data x) = { s with batch := s.batch ++ [x] }) ∧
    (∀ s : ProfilerState α,
      aggregateStep true s .tick =
        { s with parentSends := s.parentSends ++ [s.batch], batch := [] }) ∧
    (∀ events : List (ProfilerEvent α),
      (aggregateRun false events).ring = receivedData events ∧
      Report (aggregateRun false events) = receivedData events) := by
  refine ⟨fun events => ?_, fun s x => rfl, fun s => rfl, fun events => ?_⟩
  · have h : (aggregateRun true events).ring = [] := by
      unfold aggregateRun
      rw [foldl_aggregateStep_true_ring]
      rfl
    exact ⟨h, h⟩
  · have h : (aggregateRun false events).ring = receivedData events := by
      unfold aggregateRun
      rw [foldl_aggregateStep_false_ring]
      rfl
    exact ⟨h, h⟩

/-- C2: the claim fails on the code.  ServeHTTP greets the caller through
fmt.Fprintf before any WriteHeader call, which commits status 200 and makes
the later WriteHeader(202) / WriteHeader(408) superfluous, and the greeting
prefixes the body — contradicting both the return-a-202 / return-a-408
comments in ServeHTTP and the repository's TestServeHTTP, which asserts the
response body is exactly the queue message.  Evaluated at a non-empty body
with a single Content-Type value, against a pool with room and against a
full pool: the committed status is 200 in both cases and the body carries
the greeting prefix. -/
theorem serveHTTP_status_code_bug :
    (ServeHTTP { queueSize := 1, jobs := [] } (fun _ => 0)
        { bodyResult := .ok "Test message."
          contentTypeHeader := some ["text/plain"]
          url := "/api/v1/run" } 0).response =
      { status := some 200
        body := "Heyo whaddup!\nRequest placed on to queue.\n" } ∧
    (ServeHTTP { queueSize := 0, jobs := [] } (fun _ => 0)
        { bodyResult := .ok "Test message."
          contentTypeHeader := some ["text/plain"]
          url := "/api/v1/run" } 0).response =
      { status := some 200
        body := "Heyo whaddup!\nUnable to handle request at this time.\n" } := by
  constructor <;> rfl

/-- C3 counterexample: a POST with an empty body and exactly one
Content-Type value is not answered with 400 — the committed status is 200 —
and the job IS submitted to the front-door pool (with an empty payload). -/
theorem serveHTTP_emptyBody_counterexample :
    (ServeHTTP { queueSize := 1, jobs := [] } (fun _ => 0)
        { bodyResult := .ok ""
          contentTypeHeader := some ["text/plain"]
          url := "/foo" } 3).response.status = some 200 ∧
    (ServeHTTP { queueSize := 1, jobs := [] } (fun _ => 0)
        { bodyResult := .ok ""
          contentTypeHeader := some ["text/plain"]
          url := "/foo" } 3).response.status ≠ some 400 ∧
    (ServeHTTP { queueSize := 1, jobs := [] } (fun _ => 0)
        { bodyResult := .ok ""
          contentTypeHeader := some ["text/plain"]
          url := "/foo" } 3).pool.jobs =
      [{ payload := "", contentType := "text/plain", targetURL := "/foo",
         timeReceived := 3, timeAccepted := 3 }] := by
  refine ⟨rfl, by decide, rfl⟩

/-- C3 amended: the intake handler has no empty-body check.  A request whose
body reads as the empty string and which carries exactly one non-empty
Content-Type value is processed like any non-empty request: when the
front-door pool has room, the job is submitted with an empty payload, and no
400 status is committed (the response takes the accepted path). -/
theorem serveHTTP_emptyBody_amended (pool : WorkerPool CaduceusRequest)
    (health : Health) (url ct : String) (now : Nat)
    (hct : ct ≠ "") (hroom : pool.jobs.length < pool.queueSize) :
    (ServeHTTP pool health
        { bodyResult := .ok "", contentTypeHeader := some [ct], url := url }
        now).pool =
      { pool with jobs := pool.jobs ++
          [{ payload := "", contentType := ct, targetURL := url,
             timeReceived := now, timeAccepted := now }] } ∧
    (ServeHTTP pool health
        { bodyResult := .ok "", contentTypeHeader := some [ct], url := url }
        now).response.status ≠ some 400 := by
  have hsend : pool.Send
      { payload := "", contentType := ct, targetURL := url,
        timeReceived := now, timeAccepted := now } =
      .ok { pool with jobs := pool.jobs ++
        [{ payload := "", contentType := ct, targetURL := url,
           timeReceived := now, timeAccepted := now }] } := by
    simp [WorkerPool.Send, hroom]
  constructor <;>
    simp [ServeHTTP, hct, hsend, ResponseWriter.write, ResponseWriter.empty,
          ResponseWriter.WriteHeader]

/-- Witness for C3-amended at a concrete empty-body request. -/
theorem serveHTTP_emptyBody_amended_witness :
    (ServeHTTP { queueSize := 1, jobs := [] } (fun _ => 0)
        { bodyResult := .ok ""
          contentTypeHeader := some ["text/plain"]
          url := "/foo" } 3).pool =
      { queueSize := 1
        jobs := [{ payload := "", contentType := "text/plain",
                   targetURL := "/foo", timeReceived := 3,
                   timeAccepted := 3 }] } ∧
    (ServeHTTP { queueSize := 1, jobs := [] } (fun _ => 0)
        { bodyResult := .ok ""
          contentTypeHeader := some ["text/plain"]
          url := "/foo" } 3).response.status ≠ some 400 := by
  have h := serveHTTP_emptyBody_amended { queueSize := 1, jobs := [] }
    (fun _ => 0) "/foo" "text/plain" 3 (by decide) (by decide)
  simpa using h

/-- A concrete sender whose bounded queue is at capacity. -/
def fullSender : OutboundSender :=
  { sampleSender with queueSize := 1, queue := [sampleJob] }

/-- Queue-overflow never reports a job as enqueued: it either notifies the
FailureURL or stays silent. -/
theorem queueOverflow_not_enqueued (s : OutboundSender) (now : Nat) :
    (s.queueOverflow now).2 = .cutoffNotified ∨
    (s.queueOverflow now).2 = .cutoffSilent := by
  rcases hf : s.failureURL with _ | u
  · right
    simp [OutboundSender.queueOverflow, hf]
  · rcases hl : s.lastCutoff with _ | l
    · left
      simp [OutboundSender.queueOverflow, hf, hl]
    · by_cases h : l + s.cutOffPeriod ≤ now
      · left
        simp [OutboundSender.queueOverflow, hf, hl, h]
      · right
        simp [OutboundSender.queueOverflow, hf, hl, h]

/-- C1 counterexample: at a sender whose bounded queue is at capacity, a job
the matcher accepts and whose enqueue-time now is within deliverUntil is
still not dispatched (it hits the overflow policy, so no outbound POST to
the listener is attempted for it), refuting the stated equivalence. -/
theorem queue_dispatch_counterexample :
    ¬ (((fullSender.Queue 5 sampleJob).2 = .enqueued) ↔
        (fullSender.accept sampleJob.event sampleJob.deviceID = true ∧
         5 ≤ fullSender.deliverUntil)) := by
  decide

/-- C1 amended: a job queued to a sender is dispatched (enqueued, after
which a worker attempts the outbound POST) iff the matcher accepts its
(event, deviceID) ∧ the enqueue-time now is not after deliverUntil ∧ the
bounded queue has free space; and a job failing the matcher or the deadline
condition is dropped with the sender unchanged and no outbound POST. -/
theorem queue_dispatch_amended (s : OutboundSender) (now : Nat) (job : Job) :
    ((s.Queue now job).2 = .enqueued ↔
      (s.accept job.event job.deviceID = true ∧ now ≤ s.deliverUntil ∧
       s.queue.length < s.queueSize)) ∧
    (¬ (s.accept job.event job.deviceID = true ∧ now ≤ s.deliverUntil) →
      (s.Queue now job).1 = s ∧
      ((s.Queue now job).2 = .droppedExpired ∨
       (s.Queue now job).2 = .droppedNoMatch)) := by
  by_cases h1 : s.deliverUntil < now
  · have hq : s.Queue now job = (s, .droppedExpired) := by
      simp [OutboundSender.Queue, h1]
    rw [hq]
    refine ⟨⟨fun hfalse => by simp at hfalse, fun hc => ?_⟩,
            fun h => ⟨rfl, .inl rfl⟩⟩
    obtain ⟨-, hle, -⟩ := hc
    omega
  · have hle : now ≤ s.deliverUntil := Nat.le_of_not_lt h1
    by_cases h2 : s.accept job.event job.deviceID = true
    · by_cases h3 : s.queue.length < s.queueSize
      · have hq : s.Queue now job =
            ({ s with queue := s.queue ++ [job] }, .enqueued) := by
          simp [OutboundSender.Queue, h1, h2, h3]
        rw [hq]
        exact ⟨by simp [h2, hle, h3], fun h => absurd ⟨h2, hle⟩ h⟩
      · have hq : s.Queue now job = s.queueOverflow now := by
          simp [OutboundSender.Queue, h1, h2, h3]
        rw [hq]
        refine ⟨?_, fun h => absurd ⟨h2, hle⟩ h⟩
        rcases queueOverflow_not_enqueued s now with h | h <;> simp [h, h3]
    · have hq : s.Queue now job = (s, .droppedNoMatch) := by
        simp [OutboundSender.Queue, h1, h2]
      rw [hq]
      refine ⟨?_, fun h => ⟨rfl, .inr rfl⟩⟩
      simp [h2]

/-- Witness for C1-amended: at sampleSender with room, an in-date matching
job is enqueued; past the deadline the same job leaves the sender
unchanged. -/
theorem queue_dispatch_amended_witness :
    (sampleSender.Queue 5 sampleJob).2 = .enqueued ∧
    (sampleSender.Queue 20 sampleJob).1 = sampleSender := by
  refine ⟨(queue_dispatch_amended sampleSender 5 sampleJob).1.mpr
            ⟨by decide, by decide, by decide⟩,
          ((queue_dispatch_amended sampleSender 20 sampleJob).2
            (by decide)).1⟩

/-- A concrete sender whose queue capacity is zero, so every accepted job
overflows; cut-off period 4. -/
def overflowSender : OutboundSender :=
  { events := [fun e => e == "iot"]
    matcher := []
    deliverUntil := 100
    queueSize := 0
    queue := []
    failureURL := some "http://localhost:12345/bar"
    cutOffPeriod := 4
    lastCutoff := none }

/-- A concrete enqueue trace: three matching jobs at times 1, 2 and 6. -/
def overflowTrace : List (Nat × Job) :=
  [(1, sampleJob), (2, sampleJob), (6, sampleJob)]

/-- How one Queue call treats the cut-off bookkeeping: the cut-off period is
untouched, and either the call notified — then the
timestamp-of-last-notification becomes now, and any previously recorded
notification lies at least one cut-off period back — or it did not notify
and the recorded timestamp is unchanged. -/
theorem queue_lastCutoff_cases (s : OutboundSender) (now : Nat) (job : Job) :
    (s.Queue now job).1.cutOffPeriod = s.cutOffPeriod ∧
    (((s.Queue now job).2 = .cutoffNotified ∧
      (s.Queue now job).1.lastCutoff = some now ∧
      (s.lastCutoff = none ∨
        ∃ l, s.lastCutoff = some l ∧ l + s.cutOffPeriod ≤ now)) ∨
     ((s.Queue now job).2 ≠ .cutoffNotified ∧
      (s.Queue now job).1.lastCutoff = s.lastCutoff)) := by
  by_cases h1 : s.deliverUntil < now
  · have hq : s.Queue now job = (s, .droppedExpired) := by
      simp [OutboundSender.Queue, h1]
    rw [hq]
    exact ⟨rfl, .inr ⟨by simp, rfl⟩⟩
  · by_cases h2 : s.accept job.event job.deviceID = true
    · by_cases h3 : s.queue.length < s.queueSize
      · have hq : s.Queue now job =
            ({ s with queue := s.queue ++ [job] }, .enqueued) := by
          simp [OutboundSender.Queue, h1, h2, h3]
        rw [hq]
        exact ⟨rfl, .inr ⟨by simp, rfl⟩⟩
      · have hq : s.Queue now job = s.queueOverflow now := by
          simp [OutboundSender.Queue, h1, h2, h3]
        rw [hq]
        rcases hf : s.failureURL with _ | u
        · have ho : s.queueOverflow now = (s, .cutoffSilent) := by
            simp [OutboundSender.queueOverflow, hf]
          rw [ho]
          exact ⟨rfl, .inr ⟨by simp, rfl⟩⟩
        · rcases hl : s.lastCutoff with _ | l
          · have ho : s.queueOverflow now =
                ({ s with lastCutoff := some now }, .cutoffNotified) := by
              simp [OutboundSender.queueOverflow, hf, hl]
            rw [ho]
            exact ⟨rfl, .inl ⟨rfl, rfl, .inl rfl⟩⟩
          · by_cases h4 : l + s.cutOffPeriod ≤ now
            · have ho : s.queueOverflow now =
                  ({ s with lastCutoff := some now }, .cutoffNotified) := by
                simp [OutboundSender.queueOverflow, hf, hl, h4]
              rw [ho]
              exact ⟨rfl, .inl ⟨rfl, rfl, .inr ⟨l, rfl, h4⟩⟩⟩
            · have ho : s.queueOverflow now = (s, .cutoffSilent) := by
                simp [OutboundSender.queueOverflow, hf, hl, h4]
              rw [ho]
              exact ⟨rfl, .inr ⟨by simp, hl⟩⟩
    · have hq : s.Queue now job = (s, .droppedNoMatch) := by
        simp [OutboundSender.Queue, h1, h2]
      rw [hq]
      exact ⟨rfl, .inr ⟨by simp, rfl⟩⟩

/-- Invariant tying collected notification times to the
timestamp-of-last-notification: the cut-off period equals P, notification
times are pairwise at least P apart in order, and every collected time is
the recorded timestamp or at least P before it. -/
def notifInv (P : Nat) (s : OutboundSender) (ns : List Nat) : Prop :=
  s.cutOffPeriod = P ∧
  List.Pairwise (fun a b => a + P ≤ b) ns ∧
  ∀ a ∈ ns, ∃ l, s.lastCutoff = some l ∧ (a = l ∨ a + P ≤ l)

/-- One runQueue step preserves the notification invariant. -/
theorem runQueueStep_inv (P : Nat) (acc : OutboundSender × List Nat)
    (tj : Nat × Job) (h : notifInv P acc.1 acc.2) :
    notifInv P (runQueueStep acc tj).1 (runQueueStep acc tj).2 := by
  obtain ⟨hP, hpw, hlast⟩ := h
  obtain ⟨hcp, hcase⟩ := queue_lastCutoff_cases acc.1 tj.1 tj.2
  simp only [runQueueStep]
  rcases hcase with ⟨hnot, hlc, hprev⟩ | ⟨hnot, hlc⟩
  · rw [if_pos hnot]
    have hall : ∀ a ∈ acc.2, a + P ≤ tj.1 := by
      intro a ha
      obtain ⟨l, hsl, hal⟩ := hlast a ha
      rcases hprev with hnone | ⟨l2, hsl2, hl2⟩
      · rw [hsl] at hnone
        cases hnone
      · rw [hsl] at hsl2
        injection hsl2 with he
        subst he
        rw [hP] at hl2
        rcases hal with rfl | hple
        · omega
        · omega
    refine ⟨by rw [hcp, hP], ?_, ?_⟩
    · rw [List.pairwise_append]
      exact ⟨hpw, List.pairwise_singleton _ _,
             fun a ha b hb => by
               have hb2 : b = tj.1 := by simpa using hb
               subst hb2
               exact hall a ha⟩
    · intro a ha
      rw [List.mem_append] at ha
      refine ⟨tj.1, hlc, ?_⟩
      rcases ha with ha | ha
      · exact .inr (hall a ha)
      · exact .inl (by simpa using ha)
  · rw [if_neg hnot]
    refine ⟨by rw [hcp, hP], hpw, ?_⟩
    intro a ha
    obtain ⟨l, hsl, hal⟩ := hlast a ha
    exact ⟨l, by rw [hlc, hsl], hal⟩

/-- Folding runQueue steps preserves the notification invariant. -/
theorem foldl_runQueueStep_inv (P : Nat) (tr : List (Nat × Job)) :
    ∀ acc : OutboundSender × List Nat, notifInv P acc.1 acc.2 →
      notifInv P (tr.foldl runQueueStep acc).1
        (tr.foldl runQueueStep acc).2 := by
  induction tr with
  | nil => intro acc h; exact h
  | cons tj tr ih =>
    intro acc h
    exact ih _ (runQueueStep_inv P acc tj h)

/-- A list whose elements are pairwise at least P apart has at most one
element in any window of length P. -/
theorem pairwise_gap_window {P : Nat} {ns : List Nat}
    (hp : List.Pairwise (fun a b => a + P ≤ b) ns) (w : Nat) :
    (ns.filter (fun t => decide (w ≤ t ∧ t < w + P))).length ≤ 1 := by
  induction ns with
  | nil => simp
  | cons a ns ih =>
    obtain ⟨ha, hp2⟩ := List.pairwise_cons.mp hp
    by_cases hpa : w ≤ a ∧ a < w + P
    · have hnil : ns.filter (fun t => decide (w ≤ t ∧ t < w + P)) = [] := by
        rw [List.filter_eq_nil_iff]
        intro b hb
        have hab := ha b hb
        obtain ⟨hw, hwp⟩ := hpa
        simp only [decide_eq_true_eq]
        omega
      have hcond : decide (w ≤ a ∧ a < w + P) = true := decide_eq_true hpa
      rw [List.filter_cons, if_pos hcond, hnil]
      simp
    · simp only [List.filter_cons, decide_eq_true_eq, if_neg hpa]
      exact ih hp2

/-- C4: for a sender as constructed (no notification recorded yet), over any
sequence of timed enqueues, the cut-off notification times are pairwise at
least CutOffPeriod apart, so within any window of length CutOffPeriod at
most one cut-off notification POST is made to the FailureURL, however many
enqueues found the queue full. -/
theorem cutoff_rate_limited (s0 : OutboundSender)
    (h : s0.lastCutoff = none) (tr : List (Nat × Job)) :
    List.Pairwise (fun a b => a + s0.cutOffPeriod ≤ b) (runQueue s0 tr).2 ∧
    ∀ w : Nat,
      ((runQueue s0 tr).2.filter
        (fun t => decide (w ≤ t ∧ t < w + s0.cutOffPeriod))).length ≤ 1 := by
  have hinv : notifInv s0.cutOffPeriod s0 [] :=
    ⟨rfl, List.Pairwise.nil, by simp⟩
  have hres := foldl_runQueueStep_inv s0.cutOffPeriod tr (s0, []) hinv
  exact ⟨hres.2.1, fun w => pairwise_gap_window hres.2.1 w⟩

/-- Witness for C4: overflowSender sees overflows at times 1, 2 and 6 with
cut-off period 4; notifications go out at 1 and 6 only, and any length-4
window holds at most one of them. -/
theorem cutoff_rate_limited_witness :
    (runQueue overflowSender overflowTrace).2 = [1, 6] ∧
    List.Pairwise (fun a b => a + overflowSender.cutOffPeriod ≤ b)
      (runQueue overflowSender overflowTrace).2 ∧
    ((runQueue overflowSender overflowTrace).2.filter
      (fun t => decide (0 ≤ t ∧ t < 0 + overflowSender.cutOffPeriod))).length
      ≤ 1 := by
  refine ⟨rfl, (cutoff_rate_limited overflowSender rfl overflowTrace).1,
          (cutoff_rate_limited overflowSender rfl overflowTrace).2 0⟩

/-- compileList fails as soon as any regex of the list fails to compile. -/
theorem compileList_eq_none_of_mem (compile : String → Option (String → Bool))
    {r : String} : ∀ {l : List String}, r ∈ l → compile r = none →
      compileList compile l = none := by
  intro l
  induction l with
  | nil => intro h _; cases h
  | cons a l ih =>
    intro hmem hr
    rcases List.mem_cons.mp hmem with rfl | hmem2
    · simp [compileList, hr]
    · rcases hca : compile a with _ | p
      · simp [compileList, hca]
      · simp [compileList, hca, ih hmem2 hr]

/-- C5: construction of an OutboundSender fails with an error and no sender
whenever any events or device_id regex fails to compile, the URL is missing
or not a valid absolute URL, a provided FailureURL is invalid, the HTTP
client or the logger is nil, or CutOffPeriod is zero — and such a listener
never enters the dispatch set; and SenderWrapper construction fails when
Linger is zero. -/
theorem construction_validation (compile : String → Option (String → Bool))
    (osf : OutboundSenderFactory) (swf : SenderWrapperFactory) :
    (((∃ r ∈ osf.events, compile r = none) ∨
      (∃ r ∈ osf.deviceIdList, compile r = none) ∨
      validAbsoluteURL osf.url = false ∨
      (osf.failureURL ≠ "" ∧ validAbsoluteURL osf.failureURL = false) ∨
      osf.client = none ∨ osf.logger = none ∨ osf.cutOffPeriod = 0) →
      ((∃ e, osf.New compile = .error e) ∧
       ∀ m : List (String × OutboundSender), m.lookup osf.url = none →
         SenderWrapper.updateOne compile m osf = m)) ∧
    (swf.linger = 0 → ∃ e, swf.New = .error e) := by
  have hsw : swf.linger = 0 → ∃ e, swf.New = .error e := by
    intro hz
    unfold SenderWrapperFactory.New
    by_cases a : swf.numWorkersPerSender = 0
    · rw [if_pos a]
      exact ⟨_, rfl⟩
    rw [if_neg a]
    by_cases b : swf.queueSizePerSender = 0
    · rw [if_pos b]
      exact ⟨_, rfl⟩
    rw [if_neg b]
    by_cases c : swf.cutOffPeriod = 0
    · rw [if_pos c]
      exact ⟨_, rfl⟩
    rw [if_neg c]
    rw [if_pos hz]
    exact ⟨_, rfl⟩
  refine ⟨fun hbad => ?_, hsw⟩
  have herr : ∃ e, osf.New compile = .error e := by
    cases hres : osf.New compile with
    | error e => exact ⟨e, rfl⟩
    | ok sn =>
      exfalso
      unfold OutboundSenderFactory.New at hres
      by_cases h1 : osf.client = none
      · rw [if_pos h1] at hres
        cases hres
      rw [if_neg h1] at hres
      by_cases h2 : osf.cutOffPeriod = 0
      · rw [if_pos h2] at hres
        cases hres
      rw [if_neg h2] at hres
      by_cases h3 : osf.logger = none
      · rw [if_pos h3] at hres
        cases hres
      rw [if_neg h3] at hres
      by_cases hu : validAbsoluteURL osf.url = true
      case neg =>
        rw [if_pos hu] at hres
        cases hres
      rw [if_neg (not_not_intro hu)] at hres
      by_cases h5 : osf.events = []
      · rw [if_pos h5] at hres
        cases hres
      rw [if_neg h5] at hres
      rcases hev : compileList compile osf.events with _ | evs
      · rw [hev] at hres
        simp at hres
      rw [hev] at hres
      rcases hdev : compileList compile osf.deviceIdList with _ | ms
      · rw [hdev] at hres
        simp at hres
      rw [hdev] at hres
      by_cases h6 : osf.failureURL ≠ "" ∧ ¬ validAbsoluteURL osf.failureURL = true
      · simp [h6.1, h6.2] at hres
      rcases hbad with ⟨r, hrmem, hrnone⟩ | ⟨r, hrmem, hrnone⟩ |
        hurl | hfail | hcl | hlg | hcp
      · have hn := compileList_eq_none_of_mem compile hrmem hrnone
        rw [hn] at hev
        cases hev
      · have hn := compileList_eq_none_of_mem compile hrmem hrnone
        rw [hn] at hdev
        cases hdev
      · rw [hurl] at hu
        simp at hu
      · exact h6 ⟨hfail.1, by simp [hfail.2]⟩
      · exact absurd hcl h1
      · exact absurd hlg h3
      · exact absurd hcp h2
  refine ⟨herr, fun m hm => ?_⟩
  obtain ⟨e, he⟩ := herr
  simp [SenderWrapper.updateOne, hm, he]

/-- The regex compiler used by witnesses: rejects the malformed device_id
pattern from TestInvalidMatchRegex, compiles anything else to a literal
matcher. -/
def sampleCompile : String → Option (String → Bool) :=
  fun r => if r = "[[:112233445566" then none else some (fun s => s == r)

/-- Factory inputs mirroring TestInvalidMatchRegex: everything valid except
the device_id regex. -/
def badRegexFactory : OutboundSenderFactory :=
  { url := "http://localhost:9999/foo"
    contentType := "application/json"
    secret := "123456"
    untilTime := 60
    events := ["iot", "test"]
    matchers := [("device_id", ["[[:112233445566"])]
    failureURL := ""
    client := some ()
    logger := some ()
    numWorkers := 10
    queueSize := 10
    cutOffPeriod := 1 }

/-- Witness for C5: the bad-regex factory is refused and stays out of an
empty dispatch set, and a zero Linger fails wrapper construction. -/
theorem construction_validation_witness :
    (∃ e, badRegexFactory.New sampleCompile = .error e) ∧
    SenderWrapper.updateOne sampleCompile [] badRegexFactory = [] ∧
    (∃ e, SenderWrapperFactory.New
      { numWorkersPerSender := 10, queueSizePerSender := 10,
        cutOffPeriod := 30, linger := 0 } = .error e) := by
  have h := construction_validation sampleCompile badRegexFactory
    { numWorkersPerSender := 10, queueSizePerSender := 10,
      cutOffPeriod := 30, linger := 0 }
  obtain ⟨ha, hb⟩ :=
    h.1 (.inr (.inl ⟨"[[:112233445566", by decide, rfl⟩))
  exact ⟨ha, hb [] rfl, h.2 rfl⟩

/-- Decoding the JSON string array produced from a string list recovers the
list. -/
theorem decodeStrList_map_str (l : List String) :
    decodeStrList (l.map JValue.str) = some l := by
  induction l with
  | nil => rfl
  | cons a l ih => simp [decodeStrList, ih]

/-- Unmarshalling a marshalled webhook.W recovers the record. -/
theorem unmarshalW_marshalW (w : WebhookW) :
    unmarshalW (marshalW w) = some w := by
  simp [unmarshalW, marshalW, JValue.getField, decodeStrField, decodeNumField,
        decodeStrListField, List.lookup, decodeStrList_map_str]

/-- C7: a listener registration accepted by POST /hook and pushed to the
store is returned by a subsequent GET /hook as a record whose URL,
ContentType, Events, device_id matchers, Until, FailureURL and
registered-from address equal those of the registered listener. -/
theorem hook_roundtrip (defaultTTL : Nat) (store : List Item)
    (payload : JValue) (remoteAddr : String) (w : WebhookW)
    (h : NewW payload remoteAddr = some w) :
    ∃ store2, UpdateRegistry defaultTTL store payload remoteAddr = .ok store2 ∧
      GetRegistry store2 = GetRegistry store ++
        [{ url := w.url
           contentType := w.contentType
           failureURL := w.failureURL
           events := w.events
           deviceIds := w.deviceIds
           untilTime := w.untilTime
           lastRegistration := w.address }] := by
  refine ⟨store ++
    [{ identifier := w.url, data := marshalW w, ttl := defaultTTL }], ?_, ?_⟩
  · simp [UpdateRegistry, h]
  · unfold GetRegistry
    rw [List.filterMap_append]
    simp [convertItemToWebhook, unmarshalW_marshalW]

/-- A concrete registration payload in the JSON shape of the /hook API. -/
def samplePayload : JValue :=
  .obj [("config", .obj [("url", .str "http://localhost:9999/foo"),
                         ("content_type", .str "application/json")]),
        ("events", .arr [.str "iot", .str "test"]),
        ("matcher", .obj [("device_id", .arr [.str "mac:112233445566"])]),
        ("failure_url", .str "http://localhost:12345/bar"),
        ("duration", .num 300),
        ("until", .num 60)]

/-- Witness for C7: registering samplePayload from a concrete address and
reading the registry back yields exactly its fields. -/
theorem hook_roundtrip_witness :
    ∃ store2,
      UpdateRegistry 300 [] samplePayload "192.168.1.1:8080" = .ok store2 ∧
      GetRegistry store2 =
        [{ url := "http://localhost:9999/foo"
           contentType := "application/json"
           failureURL := "http://localhost:12345/bar"
           events := ["iot", "test"]
           deviceIds := ["mac:112233445566"]
           untilTime := 60
           lastRegistration := "192.168.1.1:8080" }] := by
  have h := hook_roundtrip 300 [] samplePayload "192.168.1.1:8080"
    { url := "http://localhost:9999/foo"
      contentType := "application/json"
      secret := ""
      events := ["iot", "test"]
      deviceIds := ["mac:112233445566"]
      untilTime := 60
      duration := 300
      failureURL := "http://localhost:12345/bar"
      address := "192.168.1.1:8080" }
    (by rfl)
  simpa using h

end Caduceus
